import Mathlib

/-!
Verification development for the YPMS package manager (`ypms.py`).

The definitions below are a shallow embedding of the parts of `ypms.py`
that the checked claims are about: release-tag resolution
(`YPMSSource.resolve_release_tag`), platform gating (`_when_matches`),
package-ref and dependency parsing (`_split_pkg_ref`, `_parse_dep`),
the sources map (`add_source` / `remove_source`), the installed ledger
(`_db_mark_installed` / `_db_mark_uninstalled`), the update-compatibility
check (`_check_update_compat`), the guide-step engine
(`_execute_guide_steps`), the installer (`_install_execute`), the guide
runner (`run`), and the `uninstall-package` step handler
(`_exec_step_uninstall_package`).

Python strings are modelled as `String`; optional values as `Option`;
Python truthiness of an optional string (`None` and `""` are falsy) as
`truthy`; dictionaries of strings as insertion-ordered association lists;
raised `YPMSError` exceptions as an error component of the result.
-/

namespace YPMS

/-! ## Definitions -/

/-- Python truthiness of an optional string: `None` and `""` are falsy,
every other string is truthy. -/
def truthy : Option String → Bool
  | none => false
  | some s => !(s == "")

/-- Python `str.lower()`: lowercase character by character (the strings
the program compares this way are ASCII). -/
def strLower (s : String) : String := ⟨s.data.map Char.toLower⟩

/-- `d.get(k)` on a string-keyed dict modelled as an association list
(first matching key wins; Python dict keys are unique). -/
def dictGet (al : List (String × String)) (k : String) : Option String :=
  match al with
  | [] => none
  | (k', v) :: rest => if k == k' then some v else dictGet rest k

/-- The fields of a package-info document used by
`YPMSSource.resolve_release_tag`: `package.release.default`,
`package.release.alias` and `package.release.list`. -/
structure PkgInfo where
  releaseDefault : Option String
  releaseAlias : List (String × String)
  releaseList : List String

/-- The final line of `resolve_release_tag`: `alias.get(tag, tag)`,
where `tag` may be `None` (then the result is `None`, since JSON alias
keys are strings). -/
def alias_once (al : List (String × String)) : Option String → Option String
  | none => none
  | some s => some ((dictGet al s).getD s)

/-- `YPMSSource.resolve_release_tag(pkg_info, tag)` (ypms.py lines
395-410): if `tag` is falsy, fall back to `package.release.default`,
then to `alias.get("latest")`, then to the head of
`package.release.list`; finally return `alias.get(tag, tag)`. -/
def resolve_release_tag (pkg : PkgInfo) (tag0 : Option String) : Option String :=
  let tag :=
    if truthy tag0 then tag0
    else
      let t1 := pkg.releaseDefault
      let t2 := if truthy t1 then t1 else dictGet pkg.releaseAlias "latest"
      if truthy t2 then t2
      else
        match pkg.releaseList with
        | [] => t2
        | x :: _ => some x
  alias_once pkg.releaseAlias tag

/-- The cascade of fallbacks used when the requested tag is empty: the
default, else the alias entry for `"latest"`, else the first element of
the release list (when the list is empty the last fallback, the
`"latest"` lookup, stands). -/
def fallback_tag (pkg : PkgInfo) : Option String :=
  if truthy pkg.releaseDefault then pkg.releaseDefault
  else if truthy (dictGet pkg.releaseAlias "latest") then dictGet pkg.releaseAlias "latest"
  else
    match pkg.releaseList with
    | [] => dictGet pkg.releaseAlias "latest"
    | x :: _ => some x

/-- The tag the algorithm of the spec ends up aliasing: the requested tag
if non-empty, else the fallback cascade. -/
def effective_tag (pkg : PkgInfo) (tag0 : Option String) : Option String :=
  if truthy tag0 then tag0 else fallback_tag pkg

/-- A package-info document whose alias mapping contains the chained
entries a→b and b→c. -/
def chainedAliasPkg : PkgInfo := ⟨none, [("a", "b"), ("b", "c")], []⟩

/-! ### Platform gating (`_norm_os`, `_norm_arch`, `_when_matches`) -/
/-- `_norm_os()` (ypms.py lines 134-140), as a function of `sys.platform`. -/
def norm_os (sysPlatform : String) : String :=
  if sysPlatform.startsWith "win" then "windows"
  else if sysPlatform.startsWith "darwin" then "darwin"
  else "linux"

/-- `_norm_arch()` (ypms.py lines 142-148), as a function of
`platform.machine()`. -/
def norm_arch (machine : String) : String :=
  let m := strLower machine
  if m == "x86_64" || m == "amd64" || m == "x64" then "x86_64"
  else if m == "arm64" || m == "aarch64" then "arm64"
  else if m == "" then "unknown" else m

/-- A step's `when` clause: the optional `os` and `arch` lists (a missing
dict key is `none`). A wholly absent or empty `when` dict is `none` at
the use site. -/
structure When where
  os : Option (List String)
  arch : Option (List String)

/-- Normalization applied to each entry of a `when.arch` list
(ypms.py lines 158-166): lowercase, then `amd64`/`x64` → `x86_64` and
`aarch64` → `arm64`. -/
def norm_arch_token (a0 : String) : String :=
  let a := strLower a0
  if a == "x86_64" || a == "amd64" || a == "x64" then "x86_64"
  else if a == "arm64" || a == "aarch64" then "arm64"
  else a

/-- `_when_matches(when)` (ypms.py lines 150-168), parametrized by the
normalized host OS and architecture. An `os` list constrains via
lowercased membership, an `arch` list via normalized membership; both
constraints (when present) must hold. -/
def when_matches (hostOs hostArch : String) : Option When → Bool
  | none => true
  | some w =>
    let osOk :=
      match w.os with
      | none => true
      | some l => l.any fun s => strLower s == hostOs
    let archOk :=
      match w.arch with
      | none => true
      | some l => l.any fun s => norm_arch_token s == hostArch
    osOk && archOk

/-! ### Update compatibility (`_check_update_compat`) -/
/-- One entry of the list returned by `_find_dependents` (ypms.py lines
992-997): all four fields are strings, `required_version` is `""` when
the dependency entry carried no version. -/
structure Dependent where
  dependent_source : String
  dependent_package : String
  dependent_version : String
  required_version : String

/-- The blocker message built by `_check_update_compat` (ypms.py lines
1009-1012). -/
def blocker_msg (target_source target_pref new_version : String) (d : Dependent) : String :=
  d.dependent_source ++ "/" ++ d.dependent_package ++ "@" ++ d.dependent_version ++
    " requires " ++ target_source ++ "/" ++ target_pref ++ "@" ++ d.required_version ++
    ", but planned " ++ new_version

/-- `YPMSManager._check_update_compat` (ypms.py lines 1000-1013), with
the dependents list (the result of `_find_dependents`) passed in: skip a
dependent whose `required_version` is falsy, `"latest"` (case folded) or
`"*"`; report every remaining dependent whose `required_version` differs
from the planned version. -/
def check_update_compat (target_source target_pref new_version : String) :
    List Dependent → List String
  | [] => []
  | d :: rest =>
    let req := d.required_version
    if req = "" ∨ strLower req = "latest" ∨ req = "*" then
      check_update_compat target_source target_pref new_version rest
    else if req ≠ new_version then
      blocker_msg target_source target_pref new_version d ::
        check_update_compat target_source target_pref new_version rest
    else
      check_update_compat target_source target_pref new_version rest

/-- The spec's blocker condition: an explicit `required_version` that is
non-empty, not `"latest"` case-insensitively, not `"*"`, and not the
planned new version. -/
def blocks_update (new_version : String) (d : Dependent) : Bool :=
  decide (d.required_version ≠ "" ∧ strLower d.required_version ≠ "latest" ∧
    d.required_version ≠ "*" ∧ d.required_version ≠ new_version)

/-! ### Package-ref and dependency parsing (`_split_pkg_ref`, `_parse_dep`) -/
/-- Python `str.strip()`: drop whitespace from both ends (the refs
involved are ASCII). -/
def pyStrip (s : String) : String :=
  ⟨((s.data.dropWhile Char.isWhitespace).reverse.dropWhile Char.isWhitespace).reverse⟩

/-- Split a char list at the first occurrence of `sep`: `none` when
`sep` does not occur (Python `sep in s` false), else the parts before
and after the first occurrence (Python `s.split(sep, 1)`). -/
def splitFirstChar (sep : Char) : List Char → Option (List Char × List Char)
  | [] => none
  | c :: cs =>
    if c = sep then some ([], cs)
    else (splitFirstChar sep cs).map fun p => (c :: p.1, p.2)

/-- Python `sep in s` plus `s.split(sep, 1)` on strings. -/
def splitFirst (sep : Char) (s : String) : Option (String × String) :=
  (splitFirstChar sep s.data).map fun p => (⟨p.1⟩, ⟨p.2⟩)

/-- `YPMSManager._split_pkg_ref` (ypms.py lines 936-945): reject refs
without `/`; split on the first `/`; strip both halves; reject if either
stripped half is empty. `none` models a raised `YPMSError`. -/
def split_pkg_ref (ref : String) : Option (String × String) :=
  match splitFirst '/' ref with
  | none => none
  | some (u0, p0) =>
    let user := pyStrip u0
    let pkg := pyStrip p0
    if user = "" ∨ pkg = "" then none else some (user, pkg)

/-- The trailing `@version` handling of `_parse_dep` (ypms.py lines
955-958): split the body on the first `@` and strip both parts, an
empty version becoming `None`; without `@`, the stripped body is the
ref and there is no version. -/
def version_split (body : String) : String × Option String :=
  match splitFirst '@' body with
  | some (pre, ver) =>
    (pyStrip pre, if pyStrip ver = "" then none else some (pyStrip ver))
  | none => (pyStrip body, none)

/-- `YPMSManager._parse_dep` (ypms.py lines 947-966) on a string
dependency entry: strip the entry; if it has a `:` and the part after
the first `:` contains a `/`, the part before it (stripped; empty →
`None`) is a source override and the part after it is the body; else
the whole stripped entry is the body with no override; finally split
off `@version`. -/
def parse_dep_str (dep : String) : Option String × String × Option String :=
  let body0 := pyStrip dep
  match splitFirstChar ':' body0.data with
  | some (pre, post) =>
    if post.contains '/' then
      let srcName := pyStrip ⟨pre⟩
      ((if srcName = "" then none else some srcName), version_split ⟨post⟩)
    else (none, version_split body0)
  | none => (none, version_split body0)

/-! ### Sources map (`add_source`, `remove_source`) -/
/-- The in-memory `sources_map`, an insertion-ordered dict
`name → ypms.json URL`. -/
abbrev SourcesMap := List (String × String)

/-- `YPMSManager.add_source` (ypms.py lines 869-872): `sources_map[name]
= url` — replace in place when the name is present (Python dict
assignment keeps the original position), else append. -/
def add_source (m : SourcesMap) (name url : String) : SourcesMap :=
  if m.any fun p => p.1 == name then
    m.map fun p => if p.1 == name then (name, url) else p
  else m ++ [(name, url)]

/-- `YPMSManager.remove_source` (ypms.py lines 874-878): pop the entry
for `name` when present (keys are unique, so a filter on the key). -/
def remove_source (m : SourcesMap) (name : String) : SourcesMap :=
  m.filter fun p => !(p.1 == name)

/-! ### Installed ledger and guide-driven mutation -/
/-- A raised `YPMSError`, by site. -/
inductive YPMSErr where
  | noStepMatched
  | guideNotDefined
  | uninstallBlocked
  | other (msg : String)
deriving DecidableEq, Repr

/-- One record of `installed.json` (ypms.py lines 821-827). -/
structure InstRecord where
  source : String
  package : String
  version : String
  explicit : Bool
  installed_at : String
deriving DecidableEq, Repr

/-- The installed ledger `{"envs": {env: {key: record}}}` flattened to
an insertion-ordered map `(env, key) → record`. -/
abbrev Ledger := List ((String × String) × InstRecord)

/-- `YPMSManager._db_key` (ypms.py lines 812-813):
`f"{source or 'yopr'}:{package_ref}"`. -/
def db_key (source : Option String) (package_ref : String) : String :=
  (if truthy source then source.getD "yopr" else "yopr") ++ ":" ++ package_ref

/-- Python dict assignment on the ledger: replace in place when the key
is present, else append. -/
def ledgerSet (db : Ledger) (env key : String) (rec : InstRecord) : Ledger :=
  if db.any fun p => p.1 == (env, key) then
    db.map fun p => if p.1 == (env, key) then ((env, key), rec) else p
  else db ++ [((env, key), rec)]

/-- `YPMSManager._db_mark_installed` (ypms.py lines 815-828); `now` is
the formatted current UTC time. -/
def db_mark_installed (env source package_ref version : String) (explicit : Bool)
    (now : String) (db : Ledger) : Ledger :=
  ledgerSet db env (db_key (some source) package_ref)
    ⟨source, package_ref, version, explicit, now⟩

/-- `YPMSManager._db_mark_uninstalled` (ypms.py lines 830-837): drop the
record when present. -/
def db_mark_uninstalled (env source package_ref : String) (db : Ledger) : Ledger :=
  db.filter fun p => !(p.1 == (env, db_key (some source) package_ref))

/-- The effect of executing one guide on the ledger: the optionally
raised `YPMSError` and the resulting ledger (a guide may itself change
the ledger through reentrant `install-package` / `uninstall-package`
steps; on an error the partial effects persist). -/
abbrev GuideExec := Ledger → Option YPMSErr × Ledger

/-- The guide-and-ledger core of `YPMSManager._install_execute`
(ypms.py lines 1033-1045): fail when the install guide is missing; run
the guide; only on success mark the package installed and then walk the
declared dependencies (`deps` is the combined effect of the autoinstall
loop). Errors propagate with whatever ledger the failing phase left. -/
def install_execute (guide : Option GuideExec) (deps : GuideExec)
    (env source package_ref version : String) (explicit : Bool) (now : String)
    (db : Ledger) : Option YPMSErr × Ledger :=
  match guide with
  | none => (some .guideNotDefined, db)
  | some g =>
    match g db with
    | (some e, db1) => (some e, db1)
    | (none, db1) =>
      deps (db_mark_installed env source package_ref version explicit now db1)

/-- The guide-and-ledger core of `YPMSManager.run` (ypms.py lines
1260-1269): run the named guide; only on success, and only for the
`uninstall` guide, delete the ledger record. -/
def run_guide (guide_name : String) (g : GuideExec) (env source package_ref : String)
    (db : Ledger) : Option YPMSErr × Ledger :=
  match g db with
  | (some e, db1) => (some e, db1)
  | (none, db1) =>
    (none,
      if guide_name = "uninstall" then db_mark_uninstalled env source package_ref db1
      else db1)

/-- A guide that raises and leaves the ledger unchanged. -/
def failingGuide : GuideExec := fun db => (some (.other "boom"), db)

/-- A dependency walk with no effect. -/
def noDeps : GuideExec := fun db => (none, db)

/-! ### Guide-step engine (`_execute_guide_steps`) -/
/-- The state a guide step can affect: the installed ledger, the
sources map, and the files written into environment directories. -/
structure GState where
  ledger : Ledger
  sources : SourcesMap
  files : List String

/-- A normalized guide step: its optional `when` clause and the state
transition its typed handler performs (download, shell, remove-file,
package and repo handlers are modelled by their effect, returning the
optionally raised `YPMSError`, the new state and the step result). -/
structure GStep where
  whenClause : Option When
  exec : GState → Option YPMSErr × GState × String

/-- The loop of `_execute_guide_steps` (ypms.py lines 726-776): skip
steps whose `when` clause does not match the host; run matched handlers
in order, threading state and keeping the last result; a handler error
aborts immediately; if no step matched at all, raise the platform-match
error. -/
def execute_guide_steps_from (hostOs hostArch : String) :
    List GStep → GState → String → Bool → Option YPMSErr × GState × String
  | [], s, last, ranAny =>
    if ranAny then (none, s, last) else (some .noStepMatched, s, last)
  | st :: rest, s, last, ranAny =>
    if when_matches hostOs hostArch st.whenClause then
      match st.exec s with
      | (some e, s1, r) => (some e, s1, r)
      | (none, s1, r) => execute_guide_steps_from hostOs hostArch rest s1 r true
    else execute_guide_steps_from hostOs hostArch rest s last ranAny

/-- `_execute_guide_steps` entry point: empty last result, nothing run
yet. -/
def execute_guide_steps (hostOs hostArch : String) (steps : List GStep) (s : GState) :
    Option YPMSErr × GState × String :=
  execute_guide_steps_from hostOs hostArch steps s "" false

/-- A handler that would write a file, used to show it does not run. -/
def touchStep : GState → Option YPMSErr × GState × String :=
  fun s => (none, { s with files := s.files ++ ["f"] }, "f")

/-! ### `uninstall-package` step (`_exec_step_uninstall_package`) -/
/-- A parsed dependency entry `(source?, package_ref, version?)` as
returned by `_parse_dep`. -/
structure DepItem where
  source : Option String
  pref : String
  version : Option String

/-- Python `x or y` on optional strings (falsy chaining). -/
def pyOr (a b : Option String) : Option String :=
  if truthy a then a else b

/-- The target source computed by the handler:
`src_name or (context.get("SOURCE_NAME") or "yopr")`. -/
def uninstTargetSource (ctxSource : Option String) (src : Option String) : String :=
  (pyOr src (pyOr ctxSource (some "yopr"))).getD "yopr"

/-- `_exec_step_uninstall_package` (ypms.py lines 625-656), with the
parsed items, the keys installed in the environment, the dependents
probe and the recursive `mgr.run(..., "uninstall", ...)` call
abstracted over a state `S`: skip items not in the ledger; raise when
dependents exist and `force` is unset; otherwise run the target's own
uninstall guide, swallowing any raised `YPMSError`
(`except YPMSError: pass`), and continue with the remaining targets. -/
def exec_step_uninstall_package {S : Type} (force : Bool) (ctxSource : Option String)
    (envPkgs : List String) (hasDependents : String → String → Bool)
    (runUninstall : Option String → String → S → Option YPMSErr × S) :
    List DepItem → S → Option YPMSErr × S
  | [], s => (none, s)
  | it :: rest, s =>
    let tsrc := uninstTargetSource ctxSource it.source
    let key := db_key (some tsrc) it.pref
    if !(envPkgs.contains key) then
      exec_step_uninstall_package force ctxSource envPkgs hasDependents runUninstall rest s
    else if hasDependents tsrc it.pref && !force then
      (some .uninstallBlocked, s)
    else
      let r := runUninstall (pyOr it.source ctxSource) it.pref s
      exec_step_uninstall_package force ctxSource envPkgs hasDependents runUninstall rest r.2

/-- A recursive uninstall that always raises, logging the attempt. -/
def runBoom : Option String → String → List String → Option YPMSErr × List String :=
  fun _ pref log => (some (.other "uninstall failed"), log ++ [pref])

/-! ## Theorems -/

theorem dictGet_mem {al : List (String × String)} {k v : String}
    (h : dictGet al k = some v) : (k, v) ∈ al := by
  induction al with
  | nil => simp [dictGet] at h
  | cons p rest ih =>
    obtain ⟨k', v'⟩ := p
    by_cases hk : k = k'
    · subst hk
      simp only [dictGet, beq_self_eq_true, if_pos] at h
      cases h
      exact List.mem_cons_self _ _
    · have hb : (k == k') = false := beq_eq_false_iff_ne.mpr hk
      simp only [dictGet, hb, Bool.false_eq_true, if_false] at h
      exact List.mem_cons_of_mem _ (ih h)

theorem resolve_release_tag_eq (pkg : PkgInfo) (tag0 : Option String) :
    resolve_release_tag pkg tag0 = alias_once pkg.releaseAlias (effective_tag pkg tag0) := by
  unfold resolve_release_tag effective_tag fallback_tag
  by_cases h0 : truthy tag0
  · simp [h0]
  · simp only [h0, if_false, Bool.false_eq_true]
    by_cases h1 : truthy pkg.releaseDefault
    · simp [h1]
    · simp [h1]

theorem effective_tag_truthy (pkg : PkgInfo) {s : String} (hs : s ≠ "") :
    effective_tag pkg (some s) = some s := by
  simp [effective_tag, truthy, hs]

theorem effective_tag_none (pkg : PkgInfo) : effective_tag pkg none = fallback_tag pkg := rfl

theorem effective_tag_empty (pkg : PkgInfo) :
    effective_tag pkg (some "") = fallback_tag pkg := by
  simp [effective_tag, truthy]

theorem fallback_of_effective_falsy {pkg : PkgInfo} {tag0 e : Option String}
    (he : effective_tag pkg tag0 = e) (hef : truthy e = false) :
    fallback_tag pkg = e := by
  cases h0 : truthy tag0
  · simp only [effective_tag, h0, Bool.false_eq_true, if_false] at he
    exact he
  · simp only [effective_tag, h0, if_true] at he
    rw [← he, h0] at hef
    simp at hef

/-- C1. `resolve_release_tag` follows exactly the documented algorithm:
the effective tag is the requested tag if non-empty, else the default,
else the alias entry for `"latest"`, else the head of the release list;
the result is the alias entry for the effective tag when one exists,
else the effective tag itself — one single application of the alias
mapping at the end. -/
theorem C1_resolve_release_tag_algorithm (pkg : PkgInfo) (tag0 : Option String) :
    resolve_release_tag pkg tag0 = alias_once pkg.releaseAlias (effective_tag pkg tag0) :=
  resolve_release_tag_eq pkg tag0

/-- C5 counterexample. With chained aliases a→b and b→c, resolving twice
is not the same as resolving once: `resolve(resolve("a")) = "c"` while
`resolve("a") = "b"`, so alias resolution is not idempotent as claimed. -/
theorem C5_counterexample :
    resolve_release_tag chainedAliasPkg
        (resolve_release_tag chainedAliasPkg (some "a")) ≠
      resolve_release_tag chainedAliasPkg (some "a") := by
  decide

/-- C5 amended. Alias resolution is idempotent provided the alias
mapping has no chained entries and no empty values: if every alias value
is a non-empty string that is not itself an alias key, then
`resolve(resolve(tag)) = resolve(tag)` for every tag. (The original
claim, which included chained mappings such as a→b and b→c, fails on
them.) -/
theorem C5_amended_idempotent (pkg : PkgInfo)
    (hv : ∀ p ∈ pkg.releaseAlias, p.2 ≠ "" ∧ dictGet pkg.releaseAlias p.2 = none)
    (tag0 : Option String) :
    resolve_release_tag pkg (resolve_release_tag pkg tag0) =
      resolve_release_tag pkg tag0 := by
  rw [resolve_release_tag_eq pkg tag0]
  cases he : effective_tag pkg tag0 with
  | none =>
    have hfb : fallback_tag pkg = none := fallback_of_effective_falsy he rfl
    show resolve_release_tag pkg none = alias_once pkg.releaseAlias none
    rw [resolve_release_tag_eq pkg none, effective_tag_none, hfb]
  | some u =>
    cases hu : dictGet pkg.releaseAlias u with
    | some v =>
      obtain ⟨hv1, hv2⟩ := hv _ (dictGet_mem hu)
      have h1 : alias_once pkg.releaseAlias (some u) = some v := by
        simp [alias_once, hu]
      rw [h1, resolve_release_tag_eq pkg (some v), effective_tag_truthy pkg hv1]
      simp [alias_once, hv2]
    | none =>
      have h1 : alias_once pkg.releaseAlias (some u) = some u := by
        simp [alias_once, hu]
      rw [h1]
      by_cases hue : u = ""
      · subst hue
        have hfb : fallback_tag pkg = some "" := fallback_of_effective_falsy he (by simp [truthy])
        rw [resolve_release_tag_eq pkg (some ""), effective_tag_empty, hfb]
        simp [alias_once, hu]
      · rw [resolve_release_tag_eq pkg (some u), effective_tag_truthy pkg hue]
        simp [alias_once, hu]

/-- Witness for C5's amended theorem: a concrete chain-free alias
mapping on which double resolution agrees with single resolution. -/
theorem C5_amended_idempotent_witness :
    resolve_release_tag ⟨some "v1", [("latest", "v2")], ["v3"]⟩
        (resolve_release_tag ⟨some "v1", [("latest", "v2")], ["v3"]⟩ (some "latest")) =
      resolve_release_tag ⟨some "v1", [("latest", "v2")], ["v3"]⟩ (some "latest") :=
  C5_amended_idempotent ⟨some "v1", [("latest", "v2")], ["v3"]⟩ (by decide) (some "latest")

theorem any_beq_eq_contains_map (l : List String) (f : String → String) (h : String) :
    (l.any fun s => f s == h) = (l.map f).contains h := by
  induction l with
  | nil => rfl
  | cons x xs ih =>
    by_cases hx : f x = h
    · simp [hx]
    · have h1 : (f x == h) = false := beq_eq_false_iff_ne.mpr hx
      have h2 : (h == f x) = false := beq_eq_false_iff_ne.mpr (Ne.symm hx)
      simp only [List.any_cons, List.map_cons, List.contains_cons, h1, h2,
        Bool.false_or, ih]

/-- C6 counterexample. On a linux/x86_64 host, a step with
`when = {os: [], arch: ["x86_64"]}` does not match (the empty `os` list
is an unsatisfiable constraint), although the arch-only test of the
claim succeeds — so an empty `os` list is not treated as an absent
constraint. -/
theorem C6_counterexample :
    when_matches "linux" "x86_64" (some ⟨some [], some ["x86_64"]⟩) = false ∧
    (["x86_64"].map norm_arch_token).contains "x86_64" = true := by
  decide

/-- C6 amended. A step with no `when` clause matches; a `when` clause
whose `os` list is empty never matches (the empty list is an
unsatisfiable constraint, not an absent one, so the arch list is
irrelevant); when both lists are present the step matches iff the
lowercased `os` list contains the host OS and the normalized
(amd64/x64 → x86_64, aarch64 → arm64, case-insensitive) `arch` list
contains the host architecture. -/
theorem C6_amended_when_matches (hOs hArch : String) (w : When)
    (osl archl : List String) :
    when_matches hOs hArch none = true ∧
    (w.os = some [] → when_matches hOs hArch (some w) = false) ∧
    when_matches hOs hArch (some ⟨some osl, some archl⟩) =
      ((osl.map strLower).contains hOs &&
        (archl.map norm_arch_token).contains hArch) := by
  refine ⟨rfl, ?_, ?_⟩
  · intro h
    cases w with
    | mk os arch =>
      simp only at h
      subst h
      simp [when_matches]
  · simp only [when_matches]
    rw [any_beq_eq_contains_map, any_beq_eq_contains_map]

/-- Witness for C6's amended theorem: with `os = []` and the host
architecture listed in `arch`, the step still does not match. -/
theorem C6_amended_when_matches_witness :
    when_matches "linux" "x86_64" (some ⟨some [], some ["amd64"]⟩) = false :=
  (C6_amended_when_matches "linux" "x86_64" ⟨some [], some ["amd64"]⟩ [] []).2.1 rfl

/-- C2. `_check_update_compat` reports exactly the dependents whose
resolved `required_version` is non-empty, not `"latest"`
(case-insensitively), not `"*"`, and not equal to the proposed new
version — one blocker message per such dependent, in order. -/
theorem C2_check_update_compat_blockers (target_source target_pref new_version : String)
    (dependents : List Dependent) :
    check_update_compat target_source target_pref new_version dependents =
      (dependents.filter (blocks_update new_version)).map
        (blocker_msg target_source target_pref new_version) := by
  induction dependents with
  | nil => rfl
  | cons d rest ih =>
    by_cases h1 : d.required_version = ""
    · simp [check_update_compat, List.filter, blocks_update, h1, ih]
    · by_cases h2 : strLower d.required_version = "latest"
      · simp [check_update_compat, List.filter, blocks_update, h1, h2, ih]
      · by_cases h3 : d.required_version = "*"
        · simp [check_update_compat, List.filter, blocks_update, h1, h2, h3, ih]
        · by_cases h4 : d.required_version = new_version
          · simp [check_update_compat, List.filter, blocks_update, h1, h2, h3, h4, ih]
          · simp [check_update_compat, List.filter, blocks_update, h1, h2, h3, h4, ih]

/-- C7 counterexample. The ref `"a / b"` has whitespace around both
halves, so the claim says it is rejected; the code strips the halves and
accepts it as `("a", "b")`. -/
theorem C7_counterexample : split_pkg_ref "a / b" = some ("a", "b") := by
  decide

/-- C7 amended. `_split_pkg_ref` rejects exactly the strings that lack a
`/` or whose halves, after stripping leading/trailing whitespace, are
empty; every accepted ref is split on the first `/` into the two
stripped halves, both non-empty (whitespace around a half is stripped,
not rejected). -/
theorem C7_amended_split_pkg_ref (ref : String) :
    (split_pkg_ref ref = none ↔
      splitFirst '/' ref = none ∨
        ∃ u0 p0, splitFirst '/' ref = some (u0, p0) ∧
          (pyStrip u0 = "" ∨ pyStrip p0 = "")) ∧
    (∀ u p, split_pkg_ref ref = some (u, p) →
      u ≠ "" ∧ p ≠ "" ∧
        ∃ u0 p0, splitFirst '/' ref = some (u0, p0) ∧
          u = pyStrip u0 ∧ p = pyStrip p0) := by
  cases hs : splitFirst '/' ref with
  | none =>
    constructor
    · simp [split_pkg_ref, hs]
    · intro u p hup
      simp [split_pkg_ref, hs] at hup
  | some q =>
    obtain ⟨u0, p0⟩ := q
    by_cases he : pyStrip u0 = "" ∨ pyStrip p0 = ""
    · constructor
      · constructor
        · intro _
          exact Or.inr ⟨u0, p0, rfl, he⟩
        · intro _
          simp [split_pkg_ref, hs, he]
      · intro u p hup
        simp [split_pkg_ref, hs, he] at hup
    · push_neg at he
      constructor
      · simp only [split_pkg_ref, hs]
        rw [if_neg (by push_neg; exact he)]
        constructor
        · intro h; cases h
        · rintro (h | ⟨u1, p1, h1, h2⟩)
          · cases h
          · cases h1
            rcases h2 with h2 | h2
            · exact absurd h2 he.1
            · exact absurd h2 he.2
      · intro u p hup
        simp only [split_pkg_ref, hs] at hup
        rw [if_neg (by push_neg; exact he)] at hup
        cases hup
        exact ⟨he.1, he.2, u0, p0, rfl, rfl, rfl⟩

/-- Witness for C7's amended theorem: `" a /b"` is accepted with the
stripped halves. -/
theorem C7_amended_split_pkg_ref_witness :
    "a" ≠ "" ∧ "b" ≠ "" ∧
      ∃ u0 p0, splitFirst '/' " a /b" = some (u0, p0) ∧
        "a" = pyStrip u0 ∧ "b" = pyStrip p0 :=
  (C7_amended_split_pkg_ref " a /b").2 "a" "b" (by decide)

/-- C8. In `_parse_dep`, the prefix before the first colon becomes a
source-name override exactly when the part after that colon contains a
`/`; otherwise the whole stripped entry is treated as a bare package
ref with no source override (`None`), with any `@version` suffix still
split off. -/
theorem C8_parse_dep_source_override (dep : String) :
    (∀ pre post, splitFirstChar ':' (pyStrip dep).data = some (pre, post) →
      post.contains '/' = true →
      parse_dep_str dep =
        ((if pyStrip ⟨pre⟩ = "" then none else some (pyStrip ⟨pre⟩)),
          version_split ⟨post⟩)) ∧
    ((∀ pre post, splitFirstChar ':' (pyStrip dep).data = some (pre, post) →
        post.contains '/' = false) →
      parse_dep_str dep = (none, version_split (pyStrip dep))) := by
  constructor
  · intro pre post hsp hc
    simp only [parse_dep_str, hsp, hc, if_pos]
  · intro h
    cases hsp : splitFirstChar ':' (pyStrip dep).data with
    | none => simp only [parse_dep_str, hsp]
    | some q =>
      obtain ⟨pre, post⟩ := q
      have hc := h pre post hsp
      simp only [parse_dep_str, hsp, hc, Bool.false_eq_true, if_false]

/-- Witness for C8: `"src:u/p@2"` has a colon whose tail contains `/`,
so the prefix becomes the source override and the version is split off
the tail. -/
theorem C8_parse_dep_source_override_witness :
    parse_dep_str "src:u/p@2" =
      ((if pyStrip ⟨"src".data⟩ = "" then none else some (pyStrip ⟨"src".data⟩)),
        version_split ⟨"u/p@2".data⟩) :=
  (C8_parse_dep_source_override "src:u/p@2").1 "src".data "u/p@2".data
    (by decide) (by decide)

/-- C9 counterexample. When the name is already configured, add followed
by remove deletes the pre-existing entry instead of restoring it: from
`{x → v}`, `add x u; remove x` leaves the empty map, not `{x → v}`. -/
theorem C9_counterexample :
    remove_source (add_source [("x", "v")] "x" "u") "x" ≠ [("x", "v")] := by
  decide

/-- C9 amended. `add_source(X, U)` followed by `remove_source(X)`
restores the sources map (hence the persisted `sources.json`, which is
its serialization) exactly when `X` was not already configured before
the add; for a pre-existing `X` the pair of operations deletes the old
entry. -/
theorem C9_amended_add_remove_source (m : SourcesMap) (name url : String)
    (hfresh : ∀ p ∈ m, p.1 ≠ name) :
    remove_source (add_source m name url) name = m := by
  have hany : (m.any fun p => p.1 == name) = false := by
    rw [List.any_eq_false]
    intro p hp
    simp [beq_eq_false_iff_ne.mpr (hfresh p hp)]
  rw [add_source, hany]
  simp only [Bool.false_eq_true, if_false, remove_source, List.filter_append]
  have h1 : m.filter (fun p => !(p.1 == name)) = m := by
    rw [List.filter_eq_self]
    intro p hp
    simp [beq_eq_false_iff_ne.mpr (hfresh p hp)]
  rw [h1]
  simp

/-- Witness for C9's amended theorem: adding and removing a fresh name
restores a concrete one-entry map. -/
theorem C9_amended_add_remove_source_witness :
    remove_source (add_source [("yopr", "u0")] "x" "u") "x" = [("yopr", "u0")] :=
  C9_amended_add_remove_source [("yopr", "u0")] "x" "u" (by decide)

/-- C3. The ledger record is mutated only after the corresponding guide
has executed successfully. For a guide that does not itself touch the
ledger (no reentrant package steps): if the guide fails, both the
installer and the uninstall runner return the error with the ledger
unchanged — nothing is written or deleted; if the guide succeeds, the
installer writes the record (before the dependency walk) and the
uninstall runner deletes it. -/
theorem C3_ledger_only_after_guide (g : GuideExec) (deps : GuideExec)
    (env source package_ref version : String) (explicit : Bool) (now : String)
    (db : Ledger) (hg : ∀ d, (g d).2 = d) :
    (∀ e, (g db).1 = some e →
      install_execute (some g) deps env source package_ref version explicit now db =
          (some e, db) ∧
        run_guide "uninstall" g env source package_ref db = (some e, db)) ∧
    ((g db).1 = none →
      install_execute (some g) deps env source package_ref version explicit now db =
          deps (db_mark_installed env source package_ref version explicit now db) ∧
        run_guide "uninstall" g env source package_ref db =
          (none, db_mark_uninstalled env source package_ref db)) := by
  have hgdb : g db = ((g db).1, db) := by
    conv_lhs => rw [← Prod.mk.eta (p := g db)]
    rw [hg db]
  constructor
  · intro e he
    have h2 : g db = (some e, db) := by rw [hgdb, he]
    exact ⟨by simp [install_execute, h2], by simp [run_guide, h2]⟩
  · intro he
    have h2 : g db = (none, db) := by rw [hgdb, he]
    exact ⟨by simp [install_execute, h2], by simp [run_guide, h2]⟩

/-- Witness for C3: a failing install guide leaves the empty ledger
empty, both through the installer and through the uninstall runner. -/
theorem C3_ledger_only_after_guide_witness :
    install_execute (some failingGuide) noDeps "default" "yopr" "u/p" "v1" true "t" [] =
        (some (YPMSErr.other "boom"), []) ∧
      run_guide "uninstall" failingGuide "default" "yopr" "u/p" [] =
        (some (YPMSErr.other "boom"), []) :=
  (C3_ledger_only_after_guide failingGuide noDeps "default" "yopr" "u/p" "v1" true "t" []
      (fun _ => rfl)).1 (YPMSErr.other "boom") rfl

theorem execute_from_no_match (hostOs hostArch : String) (steps : List GStep)
    (s : GState) (last : String)
    (h : ∀ st ∈ steps, when_matches hostOs hostArch st.whenClause = false) :
    execute_guide_steps_from hostOs hostArch steps s last false =
      (some .noStepMatched, s, last) := by
  revert h
  induction steps with
  | nil => intro h; rfl
  | cons st rest ih =>
    intro h
    have hst := h st (List.mem_cons_self _ _)
    simp only [execute_guide_steps_from, hst, Bool.false_eq_true, if_false]
    exact ih fun st' h' => h st' (List.mem_cons_of_mem _ h')

/-- C4. If no step's `when` clause matches the host, the engine fails
with the platform-match error and performs no side effects: no handler
runs, and the ledger, the sources map and the files of the state are
all unchanged. -/
theorem C4_no_match_no_side_effects (hostOs hostArch : String) (steps : List GStep)
    (s : GState)
    (h : ∀ st ∈ steps, when_matches hostOs hostArch st.whenClause = false) :
    execute_guide_steps hostOs hostArch steps s = (some .noStepMatched, s, "") :=
  execute_from_no_match hostOs hostArch steps s "" h

/-- Witness for C4: a single windows-only step on a linux host yields
the platform-match error and an unchanged empty state. -/
theorem C4_no_match_no_side_effects_witness :
    execute_guide_steps "linux" "x86_64"
        [⟨some ⟨some ["windows"], none⟩, touchStep⟩] ⟨[], [], []⟩ =
      (some YPMSErr.noStepMatched, ⟨[], [], []⟩, "") :=
  C4_no_match_no_side_effects "linux" "x86_64" _ _ (by
    intro st hst
    rw [List.mem_singleton] at hst
    subst hst
    decide)

/-- C10. Inside an `uninstall-package` step, once the dependents check
passes for every installed target (no dependents, or `--force` set),
the handler reports success no matter whether the recursive uninstall
guides raise: every raised `YPMSError` is swallowed, and the handler
continues with the remaining targets, folding their effects in order. -/
theorem C10_uninstall_errors_swallowed {S : Type} (force : Bool)
    (ctxSource : Option String) (envPkgs : List String)
    (hasDependents : String → String → Bool)
    (runUninstall : Option String → String → S → Option YPMSErr × S)
    (items : List DepItem) (s : S)
    (h : ∀ it ∈ items,
      envPkgs.contains (db_key (some (uninstTargetSource ctxSource it.source)) it.pref) =
        true →
      hasDependents (uninstTargetSource ctxSource it.source) it.pref = true →
      force = true) :
    exec_step_uninstall_package force ctxSource envPkgs hasDependents runUninstall items s =
      (none,
        items.foldl
          (fun st it =>
            if envPkgs.contains
                (db_key (some (uninstTargetSource ctxSource it.source)) it.pref) then
              (runUninstall (pyOr it.source ctxSource) it.pref st).2
            else st)
          s) := by
  revert h
  induction items generalizing s with
  | nil => intro _; rfl
  | cons it rest ih =>
    intro h
    have hrest : ∀ it' ∈ rest, _ := fun it' h' => h it' (List.mem_cons_of_mem _ h')
    cases hc : envPkgs.contains (db_key (some (uninstTargetSource ctxSource it.source)) it.pref) with
    | false =>
      simp only [exec_step_uninstall_package, hc, Bool.not_false, if_true, List.foldl_cons,
        Bool.false_eq_true, if_false]
      exact ih _ hrest
    | true =>
      have hnb : (hasDependents (uninstTargetSource ctxSource it.source) it.pref && !force) =
          false := by
        cases hd : hasDependents (uninstTargetSource ctxSource it.source) it.pref
        · rfl
        · rw [h it (List.mem_cons_self _ _) hc hd]
          rfl
      simp only [exec_step_uninstall_package, hc, Bool.not_true, Bool.false_eq_true, if_false,
        hnb, List.foldl_cons, if_true]
      exact ih _ hrest

/-- Witness for C10: one installed target whose own uninstall guide
raises; the step still reports success and the target was processed. -/
theorem C10_uninstall_errors_swallowed_witness :
    exec_step_uninstall_package true none ["yopr:u/p"] (fun _ _ => false) runBoom
        [⟨none, "u/p", none⟩] [] = (none, ["u/p"]) := by
  rw [C10_uninstall_errors_swallowed true none ["yopr:u/p"] (fun _ _ => false) runBoom
    [⟨none, "u/p", none⟩] [] (fun _ _ _ _ => rfl)]
  rfl

end YPMS
